import Mathlib

/-!
Verification of the code-review engine (`src/reviewers/*.py`, `src/utils/file_utils.py`)
against its natural-language specification.

The Python code is shallowly embedded: each relevant Python function becomes a
Lean definition over explicit data (files are lists of lines, issue dicts become
the `Issue` structure with `Option` fields for keys that may be absent).
-/

namespace CodeReviewer

/-- An issue dict as produced by the reviewers and consumed by
`ReviewManager._generate_summary` / `_format_results`.  Python issues are
dictionaries; keys that some producers omit (`line`, `severity`, `code`,
`suggestion`) are modelled as `Option` fields. -/
structure Issue where
  file : String
  line : Option Nat
  message : String
  severity : Option String
  type : String
  code : Option String
  suggestion : Option String
deriving DecidableEq

/-- `issue.get('severity', 'info')` from `ReviewManager._generate_summary`. -/
def sevKey (i : Issue) : String := i.severity.getD "info"

/-- Number of issues counted into the severity bucket `s` by the counting loops
of `ReviewManager._generate_summary` (each issue increments exactly the bucket
named by `sevKey`; the Python dict has exactly the five severity keys). -/
def countSev (issues : List Issue) (s : String) : Nat :=
  (issues.filter (fun i => sevKey i == s)).length

/-- `total_issues = sum(issues.values())` in `_generate_summary`: the sum of the
five severity buckets. -/
def totalIssues (issues : List Issue) : Nat :=
  countSev issues "critical" + countSev issues "high" + countSev issues "medium" +
    countSev issues "low" + countSev issues "info"

/-- The `score` computation of `ReviewManager._generate_summary`: start from 100,
and only when `total_issues > 0` deduct 10/5/2/1 points per critical/high/medium/low
issue and clamp to `[0, 100]`. -/
def summaryScore (issues : List Issue) : Int :=
  if 0 < totalIssues issues then
    max 0 (min 100 (100 - 10 * (countSev issues "critical" : Int)
      - 5 * (countSev issues "high" : Int)
      - 2 * (countSev issues "medium" : Int)
      - 1 * (countSev issues "low" : Int)))
  else
    100

/-- `ReviewManager._get_verdict`. -/
def getVerdict (score : Int) : String :=
  if score ≥ 90 then "Excellent code quality. Approved!"
  else if score ≥ 80 then "Good code quality with minor issues."
  else if score ≥ 70 then "Acceptable code quality but needs improvement."
  else if score ≥ 50 then "Poor code quality. Significant improvements needed."
  else "Critical issues found. Must be fixed before merging."

/-- The summary dict returned by `ReviewManager._generate_summary`. -/
structure Summary where
  total_issues : Nat
  critical : Nat
  high : Nat
  medium : Nat
  low : Nat
  info : Nat
  score : Int
  verdict : String
deriving DecidableEq

/-- `ReviewManager._generate_summary`: the three category result lists are
counted one after the other, which is the same as counting their concatenation. -/
def generateSummary (style security quality : List Issue) : Summary :=
  let issues := style ++ security ++ quality
  { total_issues := totalIssues issues
    critical := countSev issues "critical"
    high := countSev issues "high"
    medium := countSev issues "medium"
    low := countSev issues "low"
    info := countSev issues "info"
    score := summaryScore issues
    verdict := getVerdict (summaryScore issues) }

lemma countSev_append (xs ys : List Issue) (s : String) :
    countSev (xs ++ ys) s = countSev xs s + countSev ys s := by
  simp [countSev, List.filter_append]

lemma countSev_singleton (e : Issue) (s : String) :
    countSev [e] s = if sevKey e = s then 1 else 0 := by
  by_cases h : sevKey e = s <;> simp [countSev, beq_iff_eq, h]

lemma countSev_le_totalIssues (issues : List Issue) (s : String)
    (h : s = "critical" ∨ s = "high" ∨ s = "medium" ∨ s = "low" ∨ s = "info") :
    countSev issues s ≤ totalIssues issues := by
  unfold totalIssues
  rcases h with h | h | h | h | h <;> subst h <;> omega

/-- The score always equals the clamped linear formula: when `total_issues = 0`
every bucket is zero and the formula also gives 100. -/
lemma summaryScore_eq_clamp (issues : List Issue) :
    summaryScore issues =
      max 0 (min 100 (100 - 10 * (countSev issues "critical" : Int)
        - 5 * (countSev issues "high" : Int)
        - 2 * (countSev issues "medium" : Int)
        - 1 * (countSev issues "low" : Int))) := by
  unfold summaryScore
  by_cases h : 0 < totalIssues issues
  · simp [h]
  · have h0 : totalIssues issues = 0 := by omega
    have hc : countSev issues "critical" = 0 := by
      have := countSev_le_totalIssues issues "critical" (by tauto); omega
    have hh : countSev issues "high" = 0 := by
      have := countSev_le_totalIssues issues "high" (by tauto); omega
    have hm : countSev issues "medium" = 0 := by
      have := countSev_le_totalIssues issues "medium" (by tauto); omega
    have hl : countSev issues "low" = 0 := by
      have := countSev_le_totalIssues issues "low" (by tauto); omega
    simp [h, hc, hh, hm, hl]

lemma countSev_filter_not_info (issues : List Issue) (s : String) (hs : s ≠ "info") :
    countSev (issues.filter (fun i => !(sevKey i == "info"))) s = countSev issues s := by
  unfold countSev
  rw [List.filter_filter]
  refine congrArg List.length (List.filter_congr ?_)
  intro i _
  by_cases h : sevKey i = s
  · have : sevKey i ≠ "info" := h ▸ hs
    simp [h, this, hs]
  · simp [h]

/-- C1: for every issue collection the aggregate score equals
`clamp(100 − 10·critical − 5·high − 2·medium − 1·low, 0, 100)`; issues of
severity info do not affect the score (removing them leaves the score
unchanged); and a batch counting exactly 1 critical, 1 high and 1 medium issue
scores 83 with verdict "Good code quality with minor issues.". -/
theorem score_clamp_formula_and_scenario (issues batch : List Issue)
    (hb1 : countSev batch "critical" = 1) (hb2 : countSev batch "high" = 1)
    (hb3 : countSev batch "medium" = 1) (hb4 : countSev batch "low" = 0) :
    summaryScore issues =
      max 0 (min 100 (100 - 10 * (countSev issues "critical" : Int)
        - 5 * (countSev issues "high" : Int)
        - 2 * (countSev issues "medium" : Int)
        - 1 * (countSev issues "low" : Int)))
    ∧ summaryScore (issues.filter (fun i => !(sevKey i == "info"))) = summaryScore issues
    ∧ summaryScore batch = 83
    ∧ getVerdict (summaryScore batch) = "Good code quality with minor issues." := by
  have hbatch : summaryScore batch = 83 := by
    rw [summaryScore_eq_clamp, hb1, hb2, hb3, hb4]
    decide
  refine ⟨summaryScore_eq_clamp issues, ?_, hbatch, ?_⟩
  · rw [summaryScore_eq_clamp, summaryScore_eq_clamp,
      countSev_filter_not_info issues "critical" (by decide),
      countSev_filter_not_info issues "high" (by decide),
      countSev_filter_not_info issues "medium" (by decide),
      countSev_filter_not_info issues "low" (by decide)]
  · rw [hbatch]; decide

/-- Witness batch for the scenario of C1: one critical, one high, one medium issue. -/
def scenarioBatch : List Issue :=
  [{ file := "a.py", line := some 3, message := "m1", severity := some "critical",
     type := "security", code := none, suggestion := none },
   { file := "a.py", line := some 5, message := "m2", severity := some "high",
     type := "security", code := none, suggestion := none },
   { file := "a.py", line := some 9, message := "m3", severity := some "medium",
     type := "quality", code := none, suggestion := none }]

/-- Witness for C1 at a concrete batch. -/
theorem score_clamp_formula_and_scenario_witness :
    summaryScore scenarioBatch = 83
    ∧ getVerdict (summaryScore scenarioBatch) = "Good code quality with minor issues." := by
  have h := score_clamp_formula_and_scenario [] scenarioBatch
    (by decide) (by decide) (by decide) (by decide)
  exact ⟨h.2.2.1, h.2.2.2⟩

/-- C2: the verdict is uniquely determined by the threshold table: the five
verdict strings partition the scores, with 90, 80, 70 and 50 as inclusive lower
bounds checked from highest to lowest and a final catch-all, so every score
(in particular every integer in 0..100) maps to exactly one verdict. -/
theorem verdict_thresholds_partition (s : Int) :
    (getVerdict s = "Excellent code quality. Approved!" ↔ 90 ≤ s)
    ∧ (getVerdict s = "Good code quality with minor issues." ↔ 80 ≤ s ∧ s < 90)
    ∧ (getVerdict s = "Acceptable code quality but needs improvement." ↔ 70 ≤ s ∧ s < 80)
    ∧ (getVerdict s = "Poor code quality. Significant improvements needed." ↔ 50 ≤ s ∧ s < 70)
    ∧ (getVerdict s = "Critical issues found. Must be fixed before merging." ↔ s < 50) := by
  unfold getVerdict
  refine ⟨?_, ?_, ?_, ?_, ?_⟩ <;> split_ifs <;>
    refine ⟨fun h => ?_, fun h => ?_⟩ <;>
      first
        | rfl
        | omega
        | exact absurd h (by decide)

/-- C3: adding any single issue never raises the score, and the score is
always in the interval [0, 100]. -/
theorem score_monotone_and_bounded (issues : List Issue) (extra : Issue) :
    summaryScore (issues ++ [extra]) ≤ summaryScore issues
    ∧ 0 ≤ summaryScore issues ∧ summaryScore issues ≤ 100 := by
  have hmono : ∀ s : String,
      countSev issues s ≤ countSev (issues ++ [extra]) s := by
    intro s
    rw [countSev_append]
    exact Nat.le_add_right _ _
  refine ⟨?_, ?_, ?_⟩
  · rw [summaryScore_eq_clamp, summaryScore_eq_clamp]
    refine max_le_max le_rfl (min_le_min le_rfl ?_)
    have h1 : (countSev issues "critical" : Int) ≤ countSev (issues ++ [extra]) "critical" :=
      Int.ofNat_le.mpr (hmono "critical")
    have h2 : (countSev issues "high" : Int) ≤ countSev (issues ++ [extra]) "high" :=
      Int.ofNat_le.mpr (hmono "high")
    have h3 : (countSev issues "medium" : Int) ≤ countSev (issues ++ [extra]) "medium" :=
      Int.ofNat_le.mpr (hmono "medium")
    have h4 : (countSev issues "low" : Int) ≤ countSev (issues ++ [extra]) "low" :=
      Int.ofNat_le.mpr (hmono "low")
    linarith
  · rw [summaryScore_eq_clamp]; exact le_max_left 0 _
  · rw [summaryScore_eq_clamp]
    exact max_le (by norm_num) (min_le_left 100 _)

/-- C10: an issue lacking a severity field is counted under severity info:
it increments `total_issues` and the info bucket, and never changes the score. -/
theorem missing_severity_counts_as_info (issues : List Issue) (extra : Issue)
    (h : extra.severity = none) :
    countSev (issues ++ [extra]) "info" = countSev issues "info" + 1
    ∧ totalIssues (issues ++ [extra]) = totalIssues issues + 1
    ∧ summaryScore (issues ++ [extra]) = summaryScore issues := by
  have hk : sevKey extra = "info" := by simp [sevKey, h]
  have hcount : ∀ s : String,
      countSev (issues ++ [extra]) s = countSev issues s + (if s = "info" then 1 else 0) := by
    intro s
    rw [countSev_append, countSev_singleton, hk]
    by_cases hs : s = "info" <;> simp [hs, eq_comm]
  have hother : ∀ s : String, s ≠ "info" →
      countSev (issues ++ [extra]) s = countSev issues s := by
    intro s hs
    rw [hcount, if_neg hs]
    omega
  refine ⟨by rw [hcount]; simp, ?_, ?_⟩
  · unfold totalIssues
    rw [hother "critical" (by decide), hother "high" (by decide),
      hother "medium" (by decide), hother "low" (by decide), hcount, if_pos rfl]
    omega
  · rw [summaryScore_eq_clamp, summaryScore_eq_clamp,
      hother "critical" (by decide), hother "high" (by decide),
      hother "medium" (by decide), hother "low" (by decide)]

/-- A concrete issue with no severity field, as an external adapter might emit. -/
def noSeverityIssue : Issue :=
  { file := "ext.py", line := some 1, message := "tool finding", severity := none,
    type := "style", code := none, suggestion := none }

/-- Witness for C10 at a concrete issue with missing severity. -/
theorem missing_severity_counts_as_info_witness :
    countSev ([] ++ [noSeverityIssue]) "info" = countSev [] "info" + 1
    ∧ totalIssues ([] ++ [noSeverityIssue]) = totalIssues [] + 1
    ∧ summaryScore ([] ++ [noSeverityIssue]) = summaryScore [] :=
  missing_severity_counts_as_info [] noSeverityIssue rfl

/-! Quality reviewer: file-length check (`QualityReviewer._check_file_length`).
A file is modelled by its list of lines; `count_lines` in `utils/file_utils.py`
counts the lines obtained by iterating the open file. -/

/-- `utils.file_utils.count_lines`: `sum(1 for _ in f)` over the file's lines. -/
def countLines (lines : List String) : Nat := lines.length

/-- `QualityReviewer._check_file_length`: one file-level issue (no `line` key)
when the line count strictly exceeds the configured `file_length` threshold. -/
def checkFileLength (threshold : Nat) (repoPath : String) (lines : List String) : List Issue :=
  if countLines lines > threshold then
    [{ file := repoPath
       line := none
       message := "File is too long (" ++ toString (countLines lines) ++
         " lines, threshold: " ++ toString threshold ++ ")"
       severity := some "medium"
       type := "quality"
       code := none
       suggestion := some "Consider breaking the file into smaller, more focused modules" }]
  else []

/-- C9: a file of exactly `file_length` lines produces no file-length issue and
a file of `file_length + 1` lines produces exactly one, which carries no line
number (it is file-level). -/
theorem file_length_boundary (threshold : Nat) (path : String) (atLimit overLimit : List String)
    (hat : atLimit.length = threshold) (hover : overLimit.length = threshold + 1) :
    checkFileLength threshold path atLimit = []
    ∧ ∃ issue, checkFileLength threshold path overLimit = [issue] ∧ issue.line = none := by
  constructor
  · unfold checkFileLength countLines
    rw [hat]
    simp
  · unfold checkFileLength countLines
    rw [hover, if_pos (by omega)]
    exact ⟨_, rfl, rfl⟩

/-- Witness for C9 with threshold 2 at concrete two- and three-line files. -/
theorem file_length_boundary_witness :
    checkFileLength 2 "w.py" ["a", "b"] = []
    ∧ ∃ issue, checkFileLength 2 "w.py" ["a", "b", "c"] = [issue] ∧ issue.line = none :=
  file_length_boundary 2 "w.py" ["a", "b"] ["a", "b", "c"] rfl rfl

/-! Security reviewer (`security_reviewer.py`): the six `security_patterns`
regexes of `SecurityReviewer` are embedded as explicit matchers over the line's
character list, and `_check_security_patterns` as a per-check, per-line scan.
`re.findall(pattern, line)` is non-empty exactly when the pattern matches
somewhere in the line, which is what each matcher decides. -/

/-- Python regex `\s` (ASCII range; the scanned lines are code lines). -/
def isPySpace (c : Char) : Bool :=
  c == ' ' || c == '\t' || c == '\n' || c == '\r' || c == '\x0b' || c == '\x0c'

/-- Python regex `\w` (ASCII range). -/
def isWordChar (c : Char) : Bool := c.isAlphanum || c == '_'

/-- The character class `[\x27"]` (either quote). -/
def isQuoteChar (c : Char) : Bool := c == '\'' || c == '"'

/-- The character class `["\s]` (double quote or whitespace). -/
def isDqOrSpace (c : Char) : Bool := c == '"' || isPySpace c

/-- Case-insensitive literal prefix match, returning the remaining characters. -/
def stripCI : List Char → List Char → Option (List Char)
  | [], cs => some cs
  | _ :: _, [] => none
  | k :: ks, c :: cs => if k.toLower == c.toLower then stripCI ks cs else none

/-- Continuation of `\w+[\x27"]`: after at least one word character, either a
closing quote or another word character. -/
def matchWordTail : List Char → Bool
  | [] => false
  | c :: cs => isQuoteChar c || (isWordChar c && matchWordTail cs)

/-- `\w+[\x27"]`: one or more word characters, then a closing quote. -/
def matchWordPlus : List Char → Bool
  | [] => false
  | c :: cs => isWordChar c && matchWordTail cs

/-- `["\s]*[\x27"]\w+[\x27"]`: optional quote/whitespace padding, an opening
quote, and a quoted word.  Both star-continuation and star-exit are tried, as
regex backtracking does. -/
def matchOpenQuote : List Char → Bool
  | [] => false
  | c :: cs => (isQuoteChar c && matchWordPlus cs) || (isDqOrSpace c && matchOpenQuote cs)

/-- `["\s]*[:=]["\s]*[\x27"]\w+[\x27"]`: the assignment tail of the
hardcoded-secret pattern. -/
def matchAssign : List Char → Bool
  | [] => false
  | c :: cs => ((c == ':' || c == '=') && matchOpenQuote cs) || (isDqOrSpace c && matchAssign cs)

/-- The keyword alternation of the hardcoded-secret pattern. -/
def secretKeywords : List String := ["password", "secret", "key", "token", "credential"]

/-- A match of the hardcoded-secret pattern starting at this position:
keyword (case-insensitive), optional `s`, then the assignment tail. -/
def matchSecretFrom (cs : List Char) : Bool :=
  secretKeywords.any (fun kw =>
    match stripCI kw.toList cs with
    | some rest =>
        matchAssign rest ||
          (match rest with
           | c :: rest2 => (c == 's' || c == 'S') && matchAssign rest2
           | [] => false)
    | none => false)

/-- The `hardcoded_secrets` pattern
`(?i)(password|secret|key|token|credential)s?["\s]*[:=]["\s]*[\x27"](\w+)[\x27"]`
searched anywhere in the line. -/
def hardcodedSecretLine (line : String) : Bool :=
  line.toList.tails.any matchSecretFrom

/-- Case-insensitive substring search. -/
def containsCI (needle hay : String) : Bool :=
  hay.toList.tails.any (fun t => (stripCI needle.toList t).isSome)

/-- `.*\+\s*.*\)` after an opening parenthesis: a `+` followed later by `)`. -/
def plusThenClose (cs : List Char) : Bool :=
  cs.tails.any (fun t =>
    match t with
    | '+' :: rest => rest.contains ')'
    | _ => false)

/-- `\s*\(.*\+\s*.*\)`: optional whitespace, `(`, then a `+` and a later `)`. -/
def parenPlusClose (cs : List Char) : Bool :=
  match cs.dropWhile isPySpace with
  | '(' :: rest => plusThenClose rest
  | _ => false

/-- Search for any of the given keywords (case-insensitively) followed by
`\s*\(.*\+\s*.*\)`. -/
def searchKwThenParen (kws : List String) (line : String) : Bool :=
  line.toList.tails.any (fun t => kws.any (fun kw =>
    match stripCI kw.toList t with
    | some rest => parenPlusClose rest
    | none => false))

/-- The `sql_injection` pattern
`(?i)execute\s*\(.*\+\s*.*\)|.*\.raw\(.*\+\s*.*\)`. -/
def sqlInjectionLine (line : String) : Bool :=
  searchKwThenParen ["execute"] line ||
    line.toList.tails.any (fun t =>
      match stripCI ".raw(".toList t with
      | some rest => plusThenClose rest
      | none => false)

/-- The `command_injection` pattern
`(?i)(os\.system|subprocess\.call|exec|eval)\s*\(.*\+\s*.*\)`. -/
def commandInjectionLine (line : String) : Bool :=
  searchKwThenParen ["os.system", "subprocess.call", "exec", "eval"] line

/-- The `xss` pattern `(?i)innerHTML|document\.write\s*\(.*\+\s*.*\)`. -/
def xssLine (line : String) : Bool :=
  containsCI "innerHTML" line || searchKwThenParen ["document.write"] line

/-- The `insecure_random` pattern `(?i)Math\.random\(\)|random\.random\(\)`. -/
def insecureRandomLine (line : String) : Bool :=
  containsCI "Math.random()" line || containsCI "random.random()" line

/-- The `debug_code` pattern `(?i)(console\.log|print|debug|todo|fixme)`. -/
def debugCodeLine (line : String) : Bool :=
  containsCI "console.log" line || containsCI "print" line || containsCI "debug" line ||
    containsCI "todo" line || containsCI "fixme" line

/-- `SecurityReviewer._get_suggestion`. -/
def getSuggestion (checkName : String) : String :=
  if checkName == "hardcoded_secrets" then
    "Store secrets in environment variables or a secure vault"
  else if checkName == "sql_injection" then
    "Use parameterized queries or an ORM instead of string concatenation"
  else if checkName == "command_injection" then
    "Use safe APIs or validate and sanitize user input before using it in commands"
  else if checkName == "xss" then
    "Use safe APIs or sanitize user input before inserting it into HTML"
  else if checkName == "insecure_random" then
    "Use a cryptographically secure random number generator"
  else if checkName == "debug_code" then
    "Remove debug code before production deployment"
  else "Review and fix the security issue"

/-- The `SecurityReviewer.security_patterns` table, in dict insertion order:
(name, message, severity, matcher). -/
def securityChecks : List (String × String × String × (String → Bool)) :=
  [("hardcoded_secrets", "Potential hardcoded secret or credential", "critical",
      hardcodedSecretLine),
   ("sql_injection", "Potential SQL injection vulnerability", "critical", sqlInjectionLine),
   ("command_injection", "Potential command injection vulnerability", "critical",
      commandInjectionLine),
   ("xss", "Potential XSS vulnerability", "high", xssLine),
   ("insecure_random", "Use of insecure random number generator", "medium",
      insecureRandomLine),
   ("debug_code", "Debug code or comment found", "low", debugCodeLine)]

/-- The issues one check of `_check_security_patterns` appends: one issue per
matching line, in line order. -/
def checkIssues (repoPath : String) (lines : List String)
    (check : String × String × String × (String → Bool)) : List Issue :=
  (lines.enum).filterMap (fun p =>
    if check.2.2.2 p.2 then
      some { file := repoPath, line := some (p.1 + 1), message := check.2.1,
             severity := some check.2.2.1, type := "security", code := some check.1,
             suggestion := some (getSuggestion check.1) }
    else none)

/-- `SecurityReviewer._check_security_patterns`: the outer loop over the six
checks, each scanning every line. -/
def checkSecurityPatterns (repoPath : String) (lines : List String) : List Issue :=
  securityChecks.flatMap (checkIssues repoPath lines)

example : hardcodedSecretLine "password = 'hunter2'" = true := by decide
example : hardcodedSecretLine "PASSWORD: \"x1\"" = true := by decide
example : hardcodedSecretLine "keys = 'k'" = true := by decide
example : hardcodedSecretLine "password = \"my secret pass\"" = false := by decide
example : debugCodeLine "print(x)" = true := by decide
example : sqlInjectionLine "cursor.execute(q + u)" = true := by decide

/-- The issue the hardcoded-secret check emits for a matching line number. -/
def hcIssue (path : String) (n : Nat) : Issue :=
  { file := path, line := some n, message := "Potential hardcoded secret or credential",
    severity := some "critical", type := "security", code := some "hardcoded_secrets",
    suggestion := some (getSuggestion "hardcoded_secrets") }

/-- The hardcoded-secret scan of the line list starting at index `start`. -/
def hcScan (path : String) (start : Nat) (ls : List String) : List Issue :=
  (List.enumFrom start ls).filterMap (fun p =>
    if hardcodedSecretLine p.2 then some (hcIssue path (p.1 + 1)) else none)

lemma checkIssues_code (path : String) (lines : List String)
    (check : String × String × String × (String → Bool)) (iss : Issue)
    (h : iss ∈ checkIssues path lines check) : iss.code = some check.1 := by
  simp only [checkIssues, List.mem_filterMap] at h
  obtain ⟨p, -, hp⟩ := h
  by_cases hm : check.2.2.2 p.2
  · rw [if_pos hm, Option.some_inj] at hp
    rw [← hp]
  · rw [if_neg hm] at hp
    exact absurd hp (by simp)

lemma filter_code_ne (path : String) (lines : List String)
    (check : String × String × String × (String → Bool)) (k : Nat)
    (hname : ¬(check.1 = "hardcoded_secrets")) :
    (checkIssues path lines check).filter
      (fun iss => iss.code == some "hardcoded_secrets" && iss.line == some k) = [] := by
  rw [List.filter_eq_nil_iff]
  intro a ha
  have hc := checkIssues_code path lines check a ha
  simp [hc, hname]

lemma hcScan_filter_small (path : String) (start k : Nat) (ls : List String)
    (hk : k < start + 1) :
    (hcScan path start ls).filter
      (fun iss => iss.code == some "hardcoded_secrets" && iss.line == some k) = [] := by
  induction ls generalizing start with
  | nil => rfl
  | cons l rest ih =>
      unfold hcScan
      rw [List.enumFrom_cons, List.filterMap_cons]
      by_cases hm : hardcodedSecretLine l
      · rw [if_pos hm, List.filter_cons_of_neg, ← hcScan]
        · exact ih (start + 1) (by omega)
        · simp [hcIssue]
          omega
      · rw [if_neg hm, ← hcScan]
        exact ih (start + 1) (by omega)

lemma hcScan_filter_hit (path : String) (start i : Nat) (ls : List String) (line : String)
    (hget : ls.get? i = some line) (hm : hardcodedSecretLine line = true) :
    (hcScan path start ls).filter
      (fun iss => iss.code == some "hardcoded_secrets" && iss.line == some (start + i + 1)) =
    [hcIssue path (start + i + 1)] := by
  induction ls generalizing start i with
  | nil => simp at hget
  | cons l rest ih =>
      cases i with
      | zero =>
          have hl : l = line := by simpa using hget
          subst hl
          unfold hcScan
          rw [List.enumFrom_cons, List.filterMap_cons, if_pos hm,
            List.filter_cons_of_pos, ← hcScan]
          · rw [hcScan_filter_small path (start + 1) (start + 0 + 1) rest (by omega)]
          · simp [hcIssue]
      | succ j =>
          have hget' : rest.get? j = some line := by simpa using hget
          unfold hcScan
          rw [List.enumFrom_cons, List.filterMap_cons]
          have htail := ih (start + 1) j hget'
          have harith : start + 1 + j + 1 = start + (j + 1) + 1 := by omega
          rw [harith] at htail
          by_cases hml : hardcodedSecretLine l
          · rw [if_pos hml, List.filter_cons_of_neg, ← hcScan]
            · exact htail
            · simp [hcIssue]
          · rw [if_neg hml, ← hcScan]
            exact htail

/-- C8 counterexample: the line `password = "my secret pass"` assigns a literal
string to a variable named `password`, yet the pattern scanner emits no issue
at all for it (the regex only accepts a quoted value made of `\w` characters),
so in particular not exactly one critical hardcoded-secret issue. -/
theorem hardcoded_secret_counterexample :
    checkSecurityPatterns "config.py" ["password = \"my secret pass\""] = [] := by decide

/-- C8 (amended): for every line on which the hardcoded-secret pattern matches
(a variable named password/secret/key/token/credential, optionally pluralized,
assigned via `:` or `=` a quoted literal of one or more word characters), the
pattern scanner produces exactly one issue carrying the hardcoded-secret rule
id for that line, with critical severity and that rule's fixed suggestion
string. -/
theorem hardcoded_secret_rule (path : String) (lines : List String) (i : Nat) (line : String)
    (hget : lines.get? i = some line) (hm : hardcodedSecretLine line = true) :
    (checkSecurityPatterns path lines).filter
        (fun iss => iss.code == some "hardcoded_secrets" && iss.line == some (i + 1)) =
      [{ file := path, line := some (i + 1),
         message := "Potential hardcoded secret or credential",
         severity := some "critical", type := "security",
         code := some "hardcoded_secrets",
         suggestion := some "Store secrets in environment variables or a secure vault" }] := by
  have hscan : checkIssues path lines
      ("hardcoded_secrets", "Potential hardcoded secret or credential", "critical",
        hardcodedSecretLine) = hcScan path 0 lines := rfl
  have hhit := hcScan_filter_hit path 0 i lines line hget hm
  rw [Nat.zero_add] at hhit
  simp only [checkSecurityPatterns, securityChecks, List.flatMap_cons, List.flatMap_nil,
    List.filter_append, hscan, List.append_nil]
  rw [hhit,
    filter_code_ne path lines _ (i + 1) (by decide),
    filter_code_ne path lines _ (i + 1) (by decide),
    filter_code_ne path lines _ (i + 1) (by decide),
    filter_code_ne path lines _ (i + 1) (by decide),
    filter_code_ne path lines _ (i + 1) (by decide)]
  rfl

/-- Witness input for C8: a secret assignment on the second line. -/
def hcWitnessLines : List String := ["x = 1", "password = 'hunter2'"]

/-- Witness for C8 at a concrete file. -/
theorem hardcoded_secret_rule_witness :
    (checkSecurityPatterns "config.py" hcWitnessLines).filter
        (fun iss => iss.code == some "hardcoded_secrets" && iss.line == some (1 + 1)) =
      [{ file := "config.py", line := some (1 + 1),
         message := "Potential hardcoded secret or credential",
         severity := some "critical", type := "security",
         code := some "hardcoded_secrets",
         suggestion := some "Store secrets in environment variables or a secure vault" }] :=
  hardcoded_secret_rule "config.py" hcWitnessLines 1 "password = 'hunter2'" rfl (by decide)

/-! Report rendering (`ReviewManager._format_results`). -/

/-- The lines `_format_results` appends for one issue (severity uppercased,
file, optional line, optional suggestion, blank separator).  Reviewer-produced
issues always carry a severity; `getD "info"` covers the `Option` shape of the
model (Python would raise `KeyError` on a missing severity here). -/
def formatIssueBlock (issue : Issue) : String :=
  "- **" ++ (issue.severity.getD "info").toUpper ++ "**: " ++ issue.message ++ "\n" ++
    "  - File: `" ++ issue.file ++ "`\n" ++
    (match issue.line with
     | some n => "  - Line: " ++ toString n ++ "\n"
     | none => "") ++
    (match issue.suggestion with
     | some s => "  - Suggestion: " ++ s ++ "\n"
     | none => "") ++ "\n"

/-- One category section of `_format_results`: the title, then either the
explicit no-issues line or the issue blocks appended one by one in list order. -/
def formatCategory (title : String) (issues : List Issue) : String :=
  if issues.isEmpty then title ++ "No issues found.\n\n"
  else issues.foldl (fun acc issue => acc ++ formatIssueBlock issue) title

/-- The header block of `_format_results`. -/
def formatHeader (prTitle : String) (s : Summary) : String :=
  "# Code Review: " ++ prTitle ++ "\n\n## Summary\n\n" ++
    "- **Score**: " ++ toString s.score ++ "/100\n" ++
    "- **Verdict**: " ++ s.verdict ++ "\n" ++
    "- **Total Issues**: " ++ toString s.total_issues ++ "\n" ++
    "  - Critical: " ++ toString s.critical ++ ", High: " ++ toString s.high ++
    ", Medium: " ++ toString s.medium ++ ", Low: " ++ toString s.low ++
    ", Info: " ++ toString s.info ++ "\n\n"

/-- The formatted report of `_format_results`: header plus the three category
sections, which the dict iterates in insertion order style, security, quality. -/
structure FormattedResults where
  header : String
  styleSection : String
  securitySection : String
  qualitySection : String
deriving DecidableEq

/-- `ReviewManager._format_results`. -/
def formatResults (prTitle : String) (style security quality : List Issue) : FormattedResults :=
  { header := formatHeader prTitle (generateSummary style security quality)
    styleSection := formatCategory "## Style Issues\n\n" style
    securitySection := formatCategory "## Security Issues\n\n" security
    qualitySection := formatCategory "## Code Quality Issues\n\n" quality }

/-- The order in which issues appear in the rendered report: style section
first, then security, then quality, each in its detector's output order. -/
def renderedIssueOrder (style security quality : List Issue) : List Issue :=
  style ++ security ++ quality

/-- Modelled from the spec: the severity rank used by the required report
ordering (`info < low < medium < high < critical`). -/
def sevRank (s : String) : Nat :=
  if s == "critical" then 4
  else if s == "high" then 3
  else if s == "medium" then 2
  else if s == "low" then 1
  else 0

/-- Modelled from the spec: lexicographic comparison of file paths by
character code. -/
def charListLT : List Char → List Char → Bool
  | [], [] => false
  | [], _ :: _ => true
  | _ :: _, [] => false
  | a :: as, b :: bs => decide (a.toNat < b.toNat) || (a == b && charListLT as bs)

/-- Modelled from the spec: strict order on file paths. -/
def strLT (a b : String) : Bool := charListLT a.toList b.toList

/-- Modelled from the spec: strict order on optional line numbers — an unset
line sorts before any line number. -/
def lineLT : Option Nat → Option Nat → Bool
  | none, some _ => true
  | some x, some y => decide (x < y)
  | _, _ => false

/-- Modelled from the spec: the required report order — by file path, then
line number (unset first), then severity rank descending. -/
def specIssueLE (a b : Issue) : Bool :=
  strLT a.file b.file ||
    (a.file == b.file && (lineLT a.line b.line ||
      (a.line == b.line && decide (sevRank (sevKey b) ≤ sevRank (sevKey a)))))

/-- Modelled from the spec: whether an issue list is sorted by the required
report order. -/
def specSorted : List Issue → Bool
  | [] => true
  | [_] => true
  | a :: b :: rest => specIssueLE a b && specSorted (b :: rest)

lemma foldl_strcat (init : String) (l : List String) :
    l.foldl (fun acc s => acc ++ s) init = init ++ l.foldl (fun acc s => acc ++ s) "" := by
  induction l generalizing init with
  | nil => simp
  | cons x xs ih =>
      rw [List.foldl_cons, ih (init ++ x), List.foldl_cons, ih ("" ++ x)]
      simp [String.append_assoc]

lemma strJoin_append (l1 l2 : List String) :
    String.join (l1 ++ l2) = String.join l1 ++ String.join l2 := by
  unfold String.join
  rw [List.foldl_append, foldl_strcat]

lemma formatCategory_foldl (init : String) (issues : List Issue) :
    issues.foldl (fun acc issue => acc ++ formatIssueBlock issue) init =
      init ++ String.join (issues.map formatIssueBlock) := by
  have h := List.foldl_map formatIssueBlock
    (fun (acc : String) (s : String) => acc ++ s) issues init
  unfold String.join
  rw [← h, foldl_strcat]

/-- C4 counterexample: on this one-file batch the security scanner emits the
hardcoded-secret issue of line 5 before the debug issue of line 1 (the check
loop is the outer loop), and the report renders issues in exactly that order,
so the rendered report is not sorted by file path / line number / severity. -/
theorem report_order_counterexample :
    specSorted (renderedIssueOrder []
        (checkSecurityPatterns "app.py"
          ["print(x)", "a = 1", "b = 2", "c = 3", "password = 'abc'"])
        []) = false
    ∧ ((checkSecurityPatterns "app.py"
          ["print(x)", "a = 1", "b = 2", "c = 3", "password = 'abc'"]).map Issue.line) =
        [some 5, some 1] := by decide

/-- C4 (amended): the final rendered report does not sort issues by file path,
line and severity; each category section lists its issues verbatim in the
detector's output order, and the sections appear in the fixed order style,
security, quality, so the rendered issue order is the concatenation of the
three category lists. -/
theorem report_renders_detector_order (prTitle : String) (style security quality : List Issue)
    (hs : style ≠ []) (hx : security ≠ []) (hq : quality ≠ []) :
    (formatResults prTitle style security quality).styleSection =
        "## Style Issues\n\n" ++ String.join (style.map formatIssueBlock)
    ∧ (formatResults prTitle style security quality).securitySection =
        "## Security Issues\n\n" ++ String.join (security.map formatIssueBlock)
    ∧ (formatResults prTitle style security quality).qualitySection =
        "## Code Quality Issues\n\n" ++ String.join (quality.map formatIssueBlock)
    ∧ String.join ((renderedIssueOrder style security quality).map formatIssueBlock) =
        String.join (style.map formatIssueBlock) ++
          String.join (security.map formatIssueBlock) ++
          String.join (quality.map formatIssueBlock) := by
  refine ⟨?_, ?_, ?_, ?_⟩
  · simp [formatResults, formatCategory, hs, formatCategory_foldl]
  · simp [formatResults, formatCategory, hx, formatCategory_foldl]
  · simp [formatResults, formatCategory, hq, formatCategory_foldl]
  · simp [renderedIssueOrder, strJoin_append, String.append_assoc]

/-- Witness for C4's amended theorem at singleton categories. -/
theorem report_renders_detector_order_witness :
    (formatResults "t" [noSeverityIssue] scenarioBatch [noSeverityIssue]).styleSection =
        "## Style Issues\n\n" ++ String.join ([noSeverityIssue].map formatIssueBlock)
    ∧ (formatResults "t" [noSeverityIssue] scenarioBatch [noSeverityIssue]).securitySection =
        "## Security Issues\n\n" ++ String.join (scenarioBatch.map formatIssueBlock)
    ∧ (formatResults "t" [noSeverityIssue] scenarioBatch [noSeverityIssue]).qualitySection =
        "## Code Quality Issues\n\n" ++ String.join ([noSeverityIssue].map formatIssueBlock)
    ∧ String.join ((renderedIssueOrder [noSeverityIssue] scenarioBatch [noSeverityIssue]).map
          formatIssueBlock) =
        String.join ([noSeverityIssue].map formatIssueBlock) ++
          String.join (scenarioBatch.map formatIssueBlock) ++
          String.join ([noSeverityIssue].map formatIssueBlock) :=
  report_renders_detector_order "t" [noSeverityIssue] scenarioBatch [noSeverityIssue]
    (by decide) (by decide) (by decide)

/-! Quality reviewer: function length and complexity
(`QualityReviewer._check_functions` / `_estimate_complexity`).  The
`control_flow_patterns` regexes are case-sensitive; `\bkw\b` matches the
keyword with no word character on either side. -/

/-- `\b` before the match start: true at the line start or after a non-word
character (all the scanned keywords start with a word character). -/
def prevBoundary : Option Char → Bool
  | none => true
  | some c => !isWordChar c

/-- The keyword is a prefix here and the following character, if any, is not a
word character (`kw\b`). -/
def kwHere : List Char → List Char → Bool
  | [], [] => true
  | [], c :: _ => !isWordChar c
  | _ :: _, [] => false
  | k :: ks, c :: cs => k == c && kwHere ks cs

/-- Search for a word-bounded keyword occurrence, tracking the previous
character. -/
def kwOccursAux (kw : List Char) : Option Char → List Char → Bool
  | prev, [] => prevBoundary prev && kwHere kw []
  | prev, c :: cs => (prevBoundary prev && kwHere kw (c :: cs)) || kwOccursAux kw (some c) cs

/-- `re.search(r'\bkw\b', line)` for a keyword made of word characters. -/
def kwOccurs (kw : String) (line : String) : Bool :=
  kwOccursAux kw.toList none line.toList

/-- `re.search(r'\b\?\b', line)`: since `?` is not a word character, both
boundaries force an adjacent word character, so this matches a `?` directly
between word characters. -/
def ternaryAux : Option Char → List Char → Bool
  | _, [] => false
  | prev, c :: cs =>
      (c == '?' &&
        (match prev with | some p => isWordChar p | none => false) &&
        (match cs with | d :: _ => isWordChar d | [] => false)) ||
      ternaryAux (some c) cs

/-- The ternary-operator pattern `\b\?\b`. -/
def ternaryOccurs (line : String) : Bool := ternaryAux none line.toList

/-- Literal substring search (for `\&\&` and `\|\|`). -/
def litContains (needle hay : String) : Bool :=
  hay.toList.tails.any (fun t => needle.toList.isPrefixOf t)

/-- The `control_flow_patterns` list of `_estimate_complexity`, in order. -/
def controlFlowMatchers : List (String → Bool) :=
  [kwOccurs "if", kwOccurs "else", kwOccurs "for", kwOccurs "while", kwOccurs "switch",
   kwOccurs "case", kwOccurs "catch", ternaryOccurs, kwOccurs "and", kwOccurs "or",
   litContains "&&", litContains "||"]

/-- The inner loop of `_estimate_complexity`: one increment per pattern that
matches the line (a pattern matching several times still increments once). -/
def lineComplexity (line : String) : Nat :=
  controlFlowMatchers.foldl (fun acc m => if m line then acc + 1 else acc) 0

/-- `QualityReviewer._estimate_complexity`: base complexity 1 plus the per-line
pattern increments. -/
def estimateComplexity (lines : List String) : Nat :=
  lines.foldl (fun acc line => acc + lineComplexity line) 1

/-- Modelled from the spec: number of word-bounded occurrences of a keyword in
a line (the spec counts keyword occurrences, not matching patterns). -/
def kwCountAux (kw : List Char) : Option Char → List Char → Nat
  | prev, [] => if prevBoundary prev && kwHere kw [] then 1 else 0
  | prev, c :: cs =>
      (if prevBoundary prev && kwHere kw (c :: cs) then 1 else 0) + kwCountAux kw (some c) cs

/-- Modelled from the spec: occurrence count of one keyword. -/
def kwCount (kw : String) (line : String) : Nat :=
  kwCountAux kw.toList none line.toList

/-- Modelled from the spec: occurrence count of the ternary pattern. -/
def ternaryCountAux : Option Char → List Char → Nat
  | _, [] => 0
  | prev, c :: cs =>
      (if c == '?' &&
          (match prev with | some p => isWordChar p | none => false) &&
          (match cs with | d :: _ => isWordChar d | [] => false) then 1 else 0) +
        ternaryCountAux (some c) cs

/-- Modelled from the spec: occurrence count of the ternary pattern in a line. -/
def ternaryCount (line : String) : Nat := ternaryCountAux none line.toList

/-- Modelled from the spec: occurrence count of a literal substring. -/
def litCount (needle hay : String) : Nat :=
  (hay.toList.tails.filter (fun t => needle.toList.isPrefixOf t)).length

/-- Modelled from the spec: the total count of control-flow keyword occurrences
in one line, over the same keyword set the code uses. -/
def specLineOccurrences (line : String) : Nat :=
  kwCount "if" line + kwCount "else" line + kwCount "for" line + kwCount "while" line +
    kwCount "switch" line + kwCount "case" line + kwCount "catch" line + ternaryCount line +
    kwCount "and" line + kwCount "or" line + litCount "&&" line + litCount "||" line

/-- Modelled from the spec: complexity as 1 plus the count of control-flow
keyword occurrences across all lines of the span. -/
def specComplexity (lines : List String) : Nat :=
  1 + (lines.map specLineOccurrences).sum

/-- A function record as produced by `QualityReviewer._find_functions`
(`length` is `end_line - start_line + 1` for closed spans). -/
structure FunctionSpan where
  name : String
  start_line : Nat
  end_line : Nat
  length : Nat
deriving DecidableEq

/-- The slice `lines[func['start_line']-1 : func['end_line']]` whose
complexity `_check_functions` estimates. -/
def spanLines (lines : List String) (f : FunctionSpan) : List String :=
  (lines.drop (f.start_line - 1)).take (f.end_line - (f.start_line - 1))

/-- The loop body of `QualityReviewer._check_functions` for one found
function: a length issue when the span length exceeds the threshold, then a
complexity issue when the estimated complexity exceeds the threshold, both
anchored at the span's start line. -/
def checkFunction (functionLength complexityThreshold : Nat) (repoPath : String)
    (lines : List String) (f : FunctionSpan) : List Issue :=
  (if f.length > functionLength then
    [{ file := repoPath, line := some f.start_line,
       message := "Function \x27" ++ f.name ++ "\x27 is too long (" ++ toString f.length ++
         " lines, threshold: " ++ toString functionLength ++ ")",
       severity := some "medium", type := "quality", code := none,
       suggestion := some "Break down the function into smaller, more focused functions" }]
   else []) ++
  (if estimateComplexity (spanLines lines f) > complexityThreshold then
    [{ file := repoPath, line := some f.start_line,
       message := "Function \x27" ++ f.name ++ "\x27 is too complex (estimated complexity: " ++
         toString (estimateComplexity (spanLines lines f)) ++ ", threshold: " ++
         toString complexityThreshold ++ ")",
       severity := some "medium", type := "quality", code := none,
       suggestion := some "Reduce complexity by extracting logic into helper functions" }]
   else [])

/-- `QualityReviewer._check_functions` over the found functions. -/
def checkFunctions (functionLength complexityThreshold : Nat) (repoPath : String)
    (lines : List String) (funcs : List FunctionSpan) : List Issue :=
  funcs.flatMap (checkFunction functionLength complexityThreshold repoPath lines)

lemma foldl_matcher_count (line : String) (ms : List (String → Bool)) (acc : Nat) :
    ms.foldl (fun a m => if m line then a + 1 else a) acc =
      acc + (ms.filter (fun m => m line)).length := by
  induction ms generalizing acc with
  | nil => simp
  | cons m rest ih =>
      rw [List.foldl_cons, List.filter_cons]
      cases hb : m line with
      | false =>
          simp only [Bool.false_eq_true, if_false]
          exact ih acc
      | true =>
          simp only [if_true, List.length_cons]
          rw [ih (acc + 1)]
          exact Nat.add_right_comm acc 1 _

lemma estimateComplexity_eq_sum (ls : List String) :
    estimateComplexity ls =
      1 + (ls.map (fun l => (controlFlowMatchers.filter (fun m => m l)).length)).sum := by
  unfold estimateComplexity
  suffices h : ∀ acc : Nat, ls.foldl (fun a line => a + lineComplexity line) acc =
      acc + (ls.map (fun l => (controlFlowMatchers.filter (fun m => m l)).length)).sum by
    exact h 1
  induction ls with
  | nil => simp
  | cons l rest ih =>
      intro acc
      simp only [List.foldl_cons, List.map_cons, List.sum_cons, ih]
      unfold lineComplexity
      rw [foldl_matcher_count, Nat.zero_add]
      exact Nat.add_assoc _ _ _

/-- C5 counterexample: on the single-line span `if x and y and z` there are
three control-flow keyword occurrences (one `if`, two `and`), so the claimed
complexity would be 4; the code adds one increment per matching pattern per
line (the second `and` on the same line adds nothing) and reports 3. -/
theorem complexity_counterexample :
    estimateComplexity ["if x and y and z"] = 3
    ∧ specComplexity ["if x and y and z"] = 4 := by decide

/-- C5 (amended): the reported complexity is 1 plus, for each line of the
span, the number of distinct control-flow patterns
(if/else/for/while/switch/case/catch/ternary/and/or/&&/||) that match that
line — a pattern occurring several times in one line counts once; a 55-line
function with `function_length = 50` produces a length issue anchored at its
start line, and when the estimated complexity of its span exceeds the
threshold 10, also a separate complexity issue at the same start line. -/
theorem complexity_and_function_issues (path : String) (lines : List String)
    (f : FunctionSpan) (hlen : f.length = 55)
    (hcplx : estimateComplexity (spanLines lines f) > 10) :
    (∀ ls : List String, estimateComplexity ls =
        1 + (ls.map (fun l => (controlFlowMatchers.filter (fun m => m l)).length)).sum)
    ∧ checkFunctions 50 10 path lines [f] =
        [{ file := path, line := some f.start_line,
           message := "Function \x27" ++ f.name ++ "\x27 is too long (" ++
             toString (55 : Nat) ++ " lines, threshold: " ++ toString (50 : Nat) ++ ")",
           severity := some "medium", type := "quality", code := none,
           suggestion := some "Break down the function into smaller, more focused functions" },
         { file := path, line := some f.start_line,
           message := "Function \x27" ++ f.name ++ "\x27 is too complex (estimated complexity: " ++
             toString (estimateComplexity (spanLines lines f)) ++ ", threshold: " ++
             toString (10 : Nat) ++ ")",
           severity := some "medium", type := "quality", code := none,
           suggestion := some "Reduce complexity by extracting logic into helper functions" }]
    ∧ ∀ iss ∈ checkFunctions 50 10 path lines [f], iss.line = some f.start_line := by
  have hflat : checkFunctions 50 10 path lines [f] = checkFunction 50 10 path lines f := by
    simp [checkFunctions]
  have hform : checkFunction 50 10 path lines f =
      [{ file := path, line := some f.start_line,
         message := "Function \x27" ++ f.name ++ "\x27 is too long (" ++
           toString (55 : Nat) ++ " lines, threshold: " ++ toString (50 : Nat) ++ ")",
         severity := some "medium", type := "quality", code := none,
         suggestion := some "Break down the function into smaller, more focused functions" },
       { file := path, line := some f.start_line,
         message := "Function \x27" ++ f.name ++ "\x27 is too complex (estimated complexity: " ++
           toString (estimateComplexity (spanLines lines f)) ++ ", threshold: " ++
           toString (10 : Nat) ++ ")",
         severity := some "medium", type := "quality", code := none,
         suggestion := some "Reduce complexity by extracting logic into helper functions" }] := by
    unfold checkFunction
    rw [hlen, if_pos (by omega), if_pos hcplx]
    rfl
  refine ⟨estimateComplexity_eq_sum, by rw [hflat, hform], ?_⟩
  intro iss hiss
  rw [hflat, hform] at hiss
  simp only [List.mem_cons, List.not_mem_nil, or_false] at hiss
  rcases hiss with h | h
  · rw [h]
  · rw [h]

/-- Witness span for C5: 55 lines, 12 of them `if`-lines, one function
covering the whole file. -/
def bigSpan : FunctionSpan := { name := "big", start_line := 1, end_line := 55, length := 55 }

/-- Witness lines for C5. -/
def bigLines : List String := List.replicate 12 "if a:" ++ List.replicate 43 "x = 1"

/-- Witness for C5 at the concrete 55-line function. -/
theorem complexity_and_function_issues_witness :
    estimateComplexity (spanLines bigLines bigSpan) = 13
    ∧ ∀ iss ∈ checkFunctions 50 10 "w.py" bigLines [bigSpan],
        iss.line = some bigSpan.start_line := by
  have h := complexity_and_function_issues "w.py" bigLines bigSpan rfl (by decide)
  exact ⟨by decide, h.2.2⟩

/-! Quality reviewer: duplication detection (`QualityReviewer._check_duplication`).
The Python `blocks` dict (insertion-ordered, as Python dicts are) is modelled
as an association list into which each window position is inserted: an existing
key gets the position appended to its list, a new key is appended at the end. -/

/-- `'\n'.join(lines[i:i+block_size])`. -/
def windowJoin (ws : List String) : String := String.intercalate "\n" ws

/-- The text of the 5-line window starting at 0-based position `i`. -/
def windowText (lines : List String) (i : Nat) : String :=
  windowJoin ((lines.drop i).take 5)

/-- `block.count('#')`. -/
def hashCount (s : String) : Nat := s.toList.countP (fun c => c == '#')

/-- The skip test `block.strip() == '' or block.count('#') > block_size / 2`
with `block_size = 5`: the stripped text is empty exactly when every character
is whitespace, and `count > 2.5` is `2 * count > 5`. -/
def skipWindow (block : String) : Bool :=
  block.toList.all isPySpace || 2 * hashCount block > 5

/-- Python dict update `blocks[block].append(i+1)` / `blocks[block] = [i+1]`
on the insertion-ordered association list. -/
def insertPos : List (String × List Nat) → String → Nat → List (String × List Nat)
  | [], key, v => [(key, [v])]
  | (k, vs) :: rest, key, v =>
      if k == key then (k, vs ++ [v]) :: rest else (k, vs) :: insertPos rest key v

/-- The window loop of `_check_duplication` over the 0-based positions `ps`. -/
def buildBlocksAux (lines : List String) : List Nat → List (String × List Nat) →
    List (String × List Nat)
  | [], m => m
  | i :: rest, m =>
      buildBlocksAux lines rest
        (if skipWindow (windowText lines i) then m
         else insertPos m (windowText lines i) (i + 1))

/-- The `blocks` dict after the full window loop
(`for i in range(len(lines) - block_size + 1)`). -/
def buildBlocks (lines : List String) : List (String × List Nat) :=
  buildBlocksAux lines (List.range (lines.length - 5 + 1)) []

/-- `', '.join(map(str, line_numbers))`. -/
def joinCommaNums (ns : List Nat) : String :=
  String.intercalate ", " (ns.map toString)

/-- The issue `_check_duplication` reports for one duplicated group
(`line_numbers[0]` is total on the nonempty lists the loop builds). -/
def dupIssue (repoPath : String) (lns : List Nat) : Issue :=
  { file := repoPath, line := some (lns.headD 0),
    message := "Duplicated code block found at lines " ++ joinCommaNums lns,
    severity := some "medium", type := "quality", code := none,
    suggestion := some "Extract duplicated code into a reusable function" }

/-- `QualityReviewer._check_duplication`: files shorter than 10 lines are
skipped; every group with at least two positions yields one issue. -/
def checkDuplication (repoPath : String) (lines : List String) : List Issue :=
  if lines.length < 10 then []
  else
    (buildBlocks lines).filterMap (fun p =>
      if p.2.length > 1 then some (dupIssue repoPath p.2) else none)

/-- A window position that is not skipped. -/
def okPos (lines : List String) (i : Nat) : Bool :=
  !skipWindow (windowText lines i)

/-- Window position `i` contributes to the group keyed `k`. -/
def wpred (lines : List String) (k : String) (i : Nat) : Bool :=
  okPos lines i && windowText lines i == k

/-- Invariant of the window loop after processing the positions `ps`:
every entry holds exactly the (1-based) start lines of the processed,
unskipped windows with its key text, a key is present exactly when some
processed window produced it, and keys are unique. -/
def BlocksInv (lines : List String) (ps : List Nat) (m : List (String × List Nat)) : Prop :=
  (∀ e ∈ m, e.2 = (ps.filter (wpred lines e.1)).map (· + 1))
  ∧ (∀ k : String, (∃ vs, (k, vs) ∈ m) ↔ ∃ i ∈ ps, wpred lines k i = true)
  ∧ (m.map Prod.fst).Nodup

lemma mem_keys_iff (m : List (String × List Nat)) (k : String) :
    k ∈ m.map Prod.fst ↔ ∃ vs, (k, vs) ∈ m := by
  rw [List.mem_map]
  constructor
  · rintro ⟨⟨k0, vs0⟩, he, rfl⟩
    exact ⟨vs0, he⟩
  · rintro ⟨vs, hvs⟩
    exact ⟨(k, vs), hvs, rfl⟩

lemma insertPos_fst_of_mem (m : List (String × List Nat)) (key : String) (v : Nat)
    (hmem : key ∈ m.map Prod.fst) :
    (insertPos m key v).map Prod.fst = m.map Prod.fst := by
  induction m with
  | nil => simp at hmem
  | cons e rest ih =>
      obtain ⟨k0, vs0⟩ := e
      by_cases h : k0 = key
      · subst h
        simp [insertPos]
      · have hmem' : key ∈ rest.map Prod.fst := by
          rw [List.map_cons] at hmem
          rcases List.mem_cons.mp hmem with h' | h'
          · exact absurd h'.symm h
          · exact h'
        simp [insertPos, h, ih hmem']

lemma insertPos_of_not_mem (m : List (String × List Nat)) (key : String) (v : Nat)
    (hmem : ¬key ∈ m.map Prod.fst) :
    insertPos m key v = m ++ [(key, [v])] := by
  induction m with
  | nil => rfl
  | cons e rest ih =>
      obtain ⟨k0, vs0⟩ := e
      have h0 : ¬k0 = key := by
        intro h
        exact hmem (by simp [h])
      have hmem' : ¬key ∈ rest.map Prod.fst := by
        intro h
        exact hmem (by simp [h])
      simp [insertPos, h0, ih hmem']

lemma insertPos_key_mem (m : List (String × List Nat)) (key : String) (v : Nat) :
    key ∈ (insertPos m key v).map Prod.fst := by
  by_cases h : key ∈ m.map Prod.fst
  · rwa [insertPos_fst_of_mem m key v h]
  · rw [insertPos_of_not_mem m key v h]
    simp

lemma insertPos_mem_of_mem (m : List (String × List Nat)) (key : String) (v : Nat)
    (k : String) (vs : List Nat) (hnd : (m.map Prod.fst).Nodup)
    (h : (k, vs) ∈ insertPos m key v) :
    (¬k = key ∧ (k, vs) ∈ m) ∨
      (k = key ∧ ((∃ vs0, (key, vs0) ∈ m ∧ vs = vs0 ++ [v]) ∨
        (¬key ∈ m.map Prod.fst ∧ vs = [v]))) := by
  induction m with
  | nil =>
      simp only [insertPos, List.mem_singleton, Prod.mk.injEq] at h
      right
      exact ⟨h.1, Or.inr ⟨by simp, h.2⟩⟩
  | cons e rest ih =>
      obtain ⟨k0, vs0⟩ := e
      have hk0 : ¬k0 ∈ rest.map Prod.fst := by
        have := hnd
        simp only [List.map_cons, List.nodup_cons] at this
        exact this.1
      have hndr : (rest.map Prod.fst).Nodup := by
        have := hnd
        simp only [List.map_cons, List.nodup_cons] at this
        exact this.2
      by_cases h0 : k0 = key
      · subst h0
        simp only [insertPos] at h
        rw [if_pos (show (k0 == k0) = true by simp)] at h
        rcases List.mem_cons.mp h with heq | hrest
        · obtain ⟨hk, hvs⟩ := Prod.mk.injEq .. ▸ heq
          right
          exact ⟨hk, Or.inl ⟨vs0, by simp, hvs⟩⟩
        · left
          refine ⟨?_, List.mem_cons_of_mem _ hrest⟩
          intro hkk
          subst hkk
          exact hk0 ((mem_keys_iff rest k).mpr ⟨vs, hrest⟩)
      · simp only [insertPos] at h
        rw [if_neg (show ¬((k0 == key) = true) by simp [h0])] at h
        rcases List.mem_cons.mp h with heq | hrest
        · obtain ⟨hk, hvs⟩ := Prod.mk.injEq .. ▸ heq
          left
          refine ⟨by rw [hk]; exact h0, ?_⟩
          rw [hk, hvs]
          simp
        · rcases ih hndr hrest with ⟨hne, hm⟩ | ⟨hke, hrec⟩
          · exact Or.inl ⟨hne, List.mem_cons_of_mem _ hm⟩
          · right
            refine ⟨hke, ?_⟩
            rcases hrec with ⟨vs0', hvs0', hvs⟩ | ⟨hnm, hvs⟩
            · exact Or.inl ⟨vs0', List.mem_cons_of_mem _ hvs0', hvs⟩
            · refine Or.inr ⟨?_, hvs⟩
              intro hkm
              rw [List.map_cons] at hkm
              rcases List.mem_cons.mp hkm with h' | h'
              · exact h0 h'.symm
              · exact hnm h'

lemma mem_keys_insertPos_of_mem (m : List (String × List Nat)) (key : String) (v : Nat)
    (k : String) (hk : k ∈ m.map Prod.fst) : k ∈ (insertPos m key v).map Prod.fst := by
  by_cases hmem : key ∈ m.map Prod.fst
  · rwa [insertPos_fst_of_mem m key v hmem]
  · rw [insertPos_of_not_mem m key v hmem, List.map_append]
    exact List.mem_append_left _ hk

lemma blocksInv_nil (lines : List String) : BlocksInv lines [] [] := by
  refine ⟨by simp, fun k => ?_, by simp⟩
  simp

lemma blocksInv_skip (lines : List String) (ps : List Nat) (m : List (String × List Nat))
    (i : Nat) (hInv : BlocksInv lines ps m)
    (hsk : skipWindow (windowText lines i) = true) : BlocksInv lines (ps ++ [i]) m := by
  obtain ⟨hA, hB, hC⟩ := hInv
  have hfalse : ∀ k, wpred lines k i = false := by
    intro k
    simp [wpred, okPos, hsk]
  refine ⟨?_, ?_, hC⟩
  · intro e he
    have hfil : List.filter (wpred lines e.1) [i] = [] := by
      simp [List.filter_singleton, hfalse e.1]
    rw [List.filter_append, hfil, List.append_nil]
    exact hA e he
  · intro k
    rw [hB k]
    constructor
    · rintro ⟨j, hj, hpj⟩
      exact ⟨j, List.mem_append_left _ hj, hpj⟩
    · rintro ⟨j, hj, hpj⟩
      rcases List.mem_append.mp hj with hj | hj
      · exact ⟨j, hj, hpj⟩
      · rw [List.mem_singleton.mp hj, hfalse k] at hpj
        cases hpj

lemma blocksInv_insert (lines : List String) (ps : List Nat) (m : List (String × List Nat))
    (i : Nat) (hInv : BlocksInv lines ps m)
    (hsk : skipWindow (windowText lines i) = false) :
    BlocksInv lines (ps ++ [i]) (insertPos m (windowText lines i) (i + 1)) := by
  obtain ⟨hA, hB, hC⟩ := hInv
  have hpredkey : wpred lines (windowText lines i) i = true := by
    simp [wpred, okPos, hsk]
  have hpredother : ∀ k, ¬k = windowText lines i → wpred lines k i = false := by
    intro k hk
    simp only [wpred, okPos, hsk, Bool.not_false, Bool.true_and]
    exact beq_eq_false_iff_ne.mpr (fun he => hk he.symm)
  refine ⟨?_, ?_, ?_⟩
  · rintro ⟨k, vs⟩ he
    rcases insertPos_mem_of_mem m (windowText lines i) (i + 1) k vs hC he with
      ⟨hne, hm⟩ | ⟨hke, hrec⟩
    · have h0 := hA (k, vs) hm
      have hfil : List.filter (wpred lines k) [i] = [] := by
        simp [List.filter_singleton, hpredother k hne]
      show vs = ((ps ++ [i]).filter (wpred lines k)).map (· + 1)
      rw [List.filter_append, hfil, List.append_nil]
      exact h0
    · subst hke
      have hfil : List.filter (wpred lines (windowText lines i)) [i] = [i] := by
        simp [List.filter_singleton, hpredkey]
      rcases hrec with ⟨vs0, hvs0, rfl⟩ | ⟨hnm, rfl⟩
      · have h0 := hA (windowText lines i, vs0) hvs0
        show vs0 ++ [i + 1] =
          ((ps ++ [i]).filter (wpred lines (windowText lines i))).map (· + 1)
        rw [List.filter_append, hfil, List.map_append, ← h0]
        rfl
      · have hnone : ∀ j ∈ ps, ¬wpred lines (windowText lines i) j = true := by
          intro j hj hp
          exact hnm ((mem_keys_iff m _).mpr ((hB _).mpr ⟨j, hj, hp⟩))
        have hfil0 : ps.filter (wpred lines (windowText lines i)) = [] :=
          List.filter_eq_nil_iff.mpr hnone
        show [i + 1] = ((ps ++ [i]).filter (wpred lines (windowText lines i))).map (· + 1)
        rw [List.filter_append, hfil0, hfil, List.nil_append]
        rfl
  · intro k
    constructor
    · rintro ⟨vs, hvs⟩
      rcases insertPos_mem_of_mem m (windowText lines i) (i + 1) k vs hC hvs with
        ⟨hne, hm⟩ | ⟨hke, -⟩
      · obtain ⟨j, hj, hp⟩ := (hB k).mp ⟨vs, hm⟩
        exact ⟨j, List.mem_append_left _ hj, hp⟩
      · subst hke
        exact ⟨i, List.mem_append_right _ (by simp), hpredkey⟩
    · rintro ⟨j, hj, hp⟩
      rcases List.mem_append.mp hj with hj | hj
      · have hkm : k ∈ m.map Prod.fst := (mem_keys_iff m k).mpr ((hB k).mpr ⟨j, hj, hp⟩)
        exact (mem_keys_iff _ k).mp
          (mem_keys_insertPos_of_mem m (windowText lines i) (i + 1) k hkm)
      · have hji : j = i := List.mem_singleton.mp hj
        subst hji
        have hke : k = windowText lines j := by
          by_contra hne
          rw [hpredother k hne] at hp
          cases hp
        subst hke
        exact (mem_keys_iff _ _).mp (insertPos_key_mem m (windowText lines j) (j + 1))
  · by_cases hmem : windowText lines i ∈ m.map Prod.fst
    · rwa [insertPos_fst_of_mem m _ _ hmem]
    · rw [insertPos_of_not_mem m _ _ hmem, List.map_append]
      refine List.Nodup.append hC (by simp) ?_
      intro a ha hb
      rw [List.mem_singleton.mp hb] at ha
      exact hmem ha

lemma buildBlocksAux_inv (lines : List String) (qs : List Nat) :
    ∀ ps m, BlocksInv lines ps m →
      BlocksInv lines (ps ++ qs) (buildBlocksAux lines qs m) := by
  induction qs with
  | nil =>
      intro ps m h
      simpa using h
  | cons i rest ih =>
      intro ps m h
      have hstep : BlocksInv lines (ps ++ [i])
          (if skipWindow (windowText lines i) then m
           else insertPos m (windowText lines i) (i + 1)) := by
        by_cases hsk : skipWindow (windowText lines i) = true
        · rw [if_pos hsk]
          exact blocksInv_skip lines ps m i h hsk
        · rw [if_neg hsk]
          exact blocksInv_insert lines ps m i h (Bool.eq_false_iff.mpr hsk)
      have hres := ih (ps ++ [i]) _ hstep
      rw [List.append_assoc, List.singleton_append] at hres
      exact hres

lemma buildBlocks_inv (lines : List String) :
    BlocksInv lines (List.range (lines.length - 5 + 1)) (buildBlocks lines) := by
  have h := buildBlocksAux_inv lines (List.range (lines.length - 5 + 1)) [] []
    (blocksInv_nil lines)
  simpa [buildBlocks] using h

/-- C7 (amended): a window position contributes a group membership exactly
when the position is in range and the window is not skipped, where the skip
condition is: the window text is blank, or the number of `#` characters in
the window text exceeds half the window size (i.e. at least 3 of them in the
5-line window) — not the number of pure-comment lines; contributions are
grouped by identical concatenated window text. -/
theorem window_skip_and_grouping (lines : List String) (i : Nat) (k : String) :
    (∃ vs, (k, vs) ∈ buildBlocks lines ∧ (i + 1) ∈ vs) ↔
      (i < lines.length - 5 + 1
        ∧ ¬((windowText lines i).toList.all isPySpace = true
            ∨ 2 * hashCount (windowText lines i) > 5)
        ∧ windowText lines i = k) := by
  obtain ⟨hA, hB, hC⟩ := buildBlocks_inv lines
  have hskipiff : ∀ block : String, skipWindow block = false ↔
      ¬(block.toList.all isPySpace = true ∨ 2 * hashCount block > 5) := by
    intro block
    simp [skipWindow, not_or]
  have hwiff : ∀ k' : String, ∀ i' : Nat, wpred lines k' i' = true ↔
      (skipWindow (windowText lines i') = false ∧ windowText lines i' = k') := by
    intro k' i'
    simp [wpred, okPos, Bool.and_eq_true, beq_iff_eq]
  constructor
  · rintro ⟨vs, hvs, hin⟩
    have h0 : vs = ((List.range (lines.length - 5 + 1)).filter
        (wpred lines k)).map (· + 1) := hA (k, vs) hvs
    rw [h0] at hin
    obtain ⟨j, hj, heq⟩ := List.mem_map.mp hin
    have hij : j = i := by omega
    subst hij
    obtain ⟨hjr, hjp⟩ := List.mem_filter.mp hj
    have hir : j < lines.length - 5 + 1 := List.mem_range.mp hjr
    obtain ⟨hsk, hkey⟩ := (hwiff k j).mp hjp
    exact ⟨hir, (hskipiff _).mp hsk, hkey⟩
  · rintro ⟨hir, hskip, hkey⟩
    have hp : wpred lines k i = true :=
      (hwiff k i).mpr ⟨(hskipiff _).mpr hskip, hkey⟩
    obtain ⟨vs, hvs⟩ := (hB k).mpr ⟨i, List.mem_range.mpr hir, hp⟩
    refine ⟨vs, hvs, ?_⟩
    have h0 : vs = ((List.range (lines.length - 5 + 1)).filter
        (wpred lines k)).map (· + 1) := hA (k, vs) hvs
    rw [h0]
    exact List.mem_map.mpr ⟨i, List.mem_filter.mpr ⟨List.mem_range.mpr hir, hp⟩, rfl⟩

/-- Modelled from the spec: a pure-comment line (its first non-whitespace
character opens a comment). -/
def isPureCommentLine (l : String) : Bool :=
  (l.toList.dropWhile isPySpace).head? == some '#'

/-- Modelled from the spec: skip a window that is blank or in which more than
half of the lines are pure comments. -/
def specSkipWindow (ws : List String) : Bool :=
  (windowJoin ws).toList.all isPySpace || 2 * ws.countP isPureCommentLine > ws.length

/-- A five-line window with no comment lines but three `#` characters inside a
string literal. -/
def hashWindow : List String := ["x = 1", "y = \"###\"", "z = 2", "w = 3", "u = 4"]

/-- C7 counterexample: the window `hashWindow` contains no pure-comment line
(so the claim says it is grouped), yet the code skips it because the window
text contains three `#` characters; duplicating it verbatim in a 10-line file
yields no duplication issue at all even though windows 0 and 5 have identical
text. -/
theorem window_skip_counterexample :
    skipWindow (windowJoin hashWindow) = true
    ∧ specSkipWindow hashWindow = false
    ∧ windowText (hashWindow ++ hashWindow) 0 = windowText (hashWindow ++ hashWindow) 5
    ∧ checkDuplication "f.py" (hashWindow ++ hashWindow) = [] := by decide

lemma length_le_one_of_allEq (l : List Nat) (hnd : l.Nodup) (h : ∀ a ∈ l, ∀ b ∈ l, a = b) :
    l.length ≤ 1 := by
  match l with
  | [] => simp
  | [a] => simp
  | a :: b :: t =>
      exfalso
      have hne : a ≠ b := by
        have := List.nodup_cons.mp hnd
        intro he
        exact this.1 (he ▸ List.mem_cons_self b t)
      exact hne (h a (by simp) b (by simp))

/-- C6: a file of at least 54 lines whose windows at 0-based positions 9 and
49 (lines 10-14 and 50-54) have identical, unskipped text, with no other pair
of windows sharing text, produces exactly one duplication issue: anchored at
line 10, medium severity, message listing both start lines 10 and 50. -/
theorem duplication_two_blocks (path : String) (lines : List String)
    (hlen : 54 ≤ lines.length)
    (htext : windowText lines 49 = windowText lines 9)
    (hskip : skipWindow (windowText lines 9) = false)
    (huniq : ∀ i, i < lines.length - 5 + 1 → ∀ j, j < lines.length - 5 + 1 → i < j →
      windowText lines i = windowText lines j → i = 9 ∧ j = 49) :
    checkDuplication path lines = [dupIssue path [10, 50]]
    ∧ (dupIssue path [10, 50]).line = some 10
    ∧ (dupIssue path [10, 50]).message = "Duplicated code block found at lines 10, 50"
    ∧ (dupIssue path [10, 50]).severity = some "medium" := by
  obtain ⟨hA, hB, hC⟩ := buildBlocks_inv lines
  have hN : 50 ≤ lines.length - 5 + 1 := by omega
  have h9N : 9 < lines.length - 5 + 1 := by omega
  have h49N : 49 < lines.length - 5 + 1 := by omega
  have hpred9 : wpred lines (windowText lines 9) 9 = true := by
    simp [wpred, okPos, hskip]
  have hpred49 : wpred lines (windowText lines 9) 49 = true := by
    simp [wpred, okPos, htext, hskip]
  -- the group of the duplicated text consists of exactly positions 9 and 49
  have hfK : (List.range (lines.length - 5 + 1)).filter (wpred lines (windowText lines 9)) =
      [9, 49] := by
    have hcong : ∀ i ∈ List.range (lines.length - 5 + 1),
        wpred lines (windowText lines 9) i = (i == 9 || i == 49) := by
      intro i hir
      have hi : i < lines.length - 5 + 1 := List.mem_range.mp hir
      by_cases h9 : i = 9
      · subst h9
        simp [hpred9]
      · by_cases h49 : i = 49
        · subst h49
          simp [hpred49, h9]
        · cases hw : wpred lines (windowText lines 9) i with
          | false => simp [h9, h49]
          | true =>
              exfalso
              have htx : windowText lines i = windowText lines 9 := by
                have := (Bool.and_eq_true _ _).mp hw
                exact beq_iff_eq.mp this.2
              rcases Nat.lt_trichotomy i 9 with hlt | heq | hgt
              · obtain ⟨-, habs⟩ := huniq i hi 9 h9N hlt htx
                omega
              · exact h9 heq
              · obtain ⟨-, habs⟩ := huniq 9 h9N i hi hgt htx.symm
                exact h49 habs
    rw [List.filter_congr hcong]
    have hsplit : lines.length - 5 + 1 = 50 + (lines.length - 5 + 1 - 50) := by omega
    rw [hsplit, List.range_add, List.filter_append]
    have h1 : (List.range 50).filter (fun i => i == 9 || i == 49) = [9, 49] := by decide
    have h2 : ((List.range (lines.length - 5 + 1 - 50)).map (fun x => 50 + x)).filter
        (fun i => i == 9 || i == 49) = [] := by
      rw [List.filter_eq_nil_iff]
      intro a ha
      obtain ⟨x, -, rfl⟩ := List.mem_map.mp ha
      simp only [Bool.or_eq_true, beq_iff_eq, not_or]
      omega
    rw [h1, h2, List.append_nil]
  -- the entry for the duplicated text holds exactly [10, 50]
  obtain ⟨vs, hvs⟩ := (hB (windowText lines 9)).mpr ⟨9, List.mem_range.mpr h9N, hpred9⟩
  have hvseq : vs = [10, 50] := by
    have h0 : vs = ((List.range (lines.length - 5 + 1)).filter
        (wpred lines (windowText lines 9))).map (· + 1) := hA (windowText lines 9, vs) hvs
    rw [hfK] at h0
    exact h0
  subst hvseq
  -- every other entry is a singleton group
  have hshort : ∀ e ∈ buildBlocks lines, ¬e.1 = windowText lines 9 → e.2.length ≤ 1 := by
    intro e he hne
    rw [hA e he, List.length_map]
    refine length_le_one_of_allEq _ (List.Nodup.filter _ (List.nodup_range _)) ?_
    intro a ha b hb
    obtain ⟨haR, hap⟩ := List.mem_filter.mp ha
    obtain ⟨hbR, hbp⟩ := List.mem_filter.mp hb
    have hta : windowText lines a = e.1 :=
      beq_iff_eq.mp ((Bool.and_eq_true _ _).mp hap).2
    have htb : windowText lines b = e.1 :=
      beq_iff_eq.mp ((Bool.and_eq_true _ _).mp hbp).2
    by_contra hab
    rcases Nat.lt_trichotomy a b with hlt | heq | hgt
    · obtain ⟨ha9, -⟩ := huniq a (List.mem_range.mp haR) b (List.mem_range.mp hbR) hlt
        (hta.trans htb.symm)
      exact hne (ha9 ▸ hta).symm
    · exact hab heq
    · obtain ⟨hb9, -⟩ := huniq b (List.mem_range.mp hbR) a (List.mem_range.mp haR) hgt
        (htb.trans hta.symm)
      exact hne (hb9 ▸ htb).symm
  -- assemble the filterMap over the blocks dict
  obtain ⟨m1, m2, hm⟩ := List.append_of_mem hvs
  have hCsplit := hC
  rw [hm, List.map_append, List.map_cons] at hCsplit
  have hKnot : ¬windowText lines 9 ∈ m1.map Prod.fst ++ m2.map Prod.fst :=
    (List.nodup_cons.mp (List.nodup_middle.mp hCsplit)).1
  have hne1 : ∀ e ∈ m1, ¬e.1 = windowText lines 9 := by
    intro e he hke
    exact hKnot (List.mem_append_left _ (hke ▸ List.mem_map_of_mem Prod.fst he))
  have hne2 : ∀ e ∈ m2, ¬e.1 = windowText lines 9 := by
    intro e he hke
    exact hKnot (List.mem_append_right _ (hke ▸ List.mem_map_of_mem Prod.fst he))
  have hmem1 : ∀ e ∈ m1, e ∈ buildBlocks lines := by
    intro e he
    rw [hm]
    exact List.mem_append_left _ he
  have hmem2 : ∀ e ∈ m2, e ∈ buildBlocks lines := by
    intro e he
    rw [hm]
    exact List.mem_append_right _ (List.mem_cons_of_mem _ he)
  refine ⟨?_, rfl, ?_, rfl⟩
  case refine_2 =>
    show "Duplicated code block found at lines " ++ joinCommaNums [10, 50] =
      "Duplicated code block found at lines 10, 50"
    decide
  unfold checkDuplication
  rw [if_neg (by omega)]
  rw [hm, List.filterMap_append, List.filterMap_cons]
  have hf1 : m1.filterMap
      (fun p => if p.2.length > 1 then some (dupIssue path p.2) else none) = [] := by
    rw [List.filterMap_eq_nil_iff]
    intro e he
    rw [if_neg]
    have := hshort e (hmem1 e he) (hne1 e he)
    omega
  have hf2 : m2.filterMap
      (fun p => if p.2.length > 1 then some (dupIssue path p.2) else none) = [] := by
    rw [List.filterMap_eq_nil_iff]
    intro e he
    rw [if_neg]
    have := hshort e (hmem2 e he) (hne2 e he)
    omega
  rw [hf1, hf2]
  rfl

/-- Witness file for C6: 54 distinct lines except that lines 50-54 repeat
lines 10-14. -/
def dupLines : List String :=
  ["a0", "a1", "a2", "a3", "a4", "a5", "a6", "a7", "a8", "a9", "a10", "a11",
   "a12", "a13", "a14", "a15", "a16", "a17", "a18", "a19", "a20", "a21", "a22",
   "a23", "a24", "a25", "a26", "a27", "a28", "a29", "a30", "a31", "a32", "a33",
   "a34", "a35", "a36", "a37", "a38", "a39", "a40", "a41", "a42", "a43", "a44",
   "a45", "a46", "a47", "a48", "a9", "a10", "a11", "a12", "a13"]

/-- Witness for C6 at the concrete duplicated file. -/
theorem duplication_two_blocks_witness :
    checkDuplication "d.py" dupLines = [dupIssue "d.py" [10, 50]]
    ∧ (dupIssue "d.py" [10, 50]).line = some 10
    ∧ (dupIssue "d.py" [10, 50]).severity = some "medium" := by
  have h := duplication_two_blocks "d.py" dupLines (by decide) (by decide) (by decide)
    (by decide)
  exact ⟨h.1, h.2.1, h.2.2.2⟩

end CodeReviewer
